/-
Verification of the tic-tac-toe game-state module (src/main.rs).

The core is the `TicTacToe` struct with operations `make_move`, `check_winner`,
`check_draw`, `reset` and the UI helper `get_status_text`.  We embed it
shallowly: the 3x3 array `[[Cell; 3]; 3]` becomes a function
`Fin 3 × Fin 3 → Cell` indexed by (row, col); in-place mutation becomes a
state-to-state function.  Rust indexing `self.board[row][col]` with `usize`
indices panics when an index is out of range, so `make_move`, the one
operation taking raw indices, returns `Option TicTacToe`, with `none`
modelling the index-out-of-bounds panic.
-/
import Mathlib

set_option autoImplicit false

/-- Embeds `enum Player { X, O }`. -/
inductive Player : Type where
  | X : Player
  | O : Player
deriving DecidableEq, Fintype

/-- Embeds `enum Cell { Empty, Player(Player) }`. -/
inductive Cell : Type where
  | Empty : Cell
  | Player : Player → Cell
deriving DecidableEq, Fintype

/-- The 3x3 board `[[Cell; 3]; 3]`, indexed by (row, col). -/
def Board : Type := Fin 3 × Fin 3 → Cell

instance : DecidableEq Board :=
  inferInstanceAs (DecidableEq (Fin 3 × Fin 3 → Cell))

/-- Embeds `struct TicTacToe { board, current_player, game_over, winner }`. -/
structure TicTacToe : Type where
  board : Board
  current_player : Player
  game_over : Bool
  winner : Option Player
deriving DecidableEq

/-- Embeds the match in `make_move` that advances the player:
`match self.current_player { Player::X => Player::O, Player::O => Player::X }`. -/
def Player.other : Player → Player
  | Player.X => Player.O
  | Player.O => Player.X

/-- Embeds `TicTacToe::new`: empty board, X to move, not over, no winner. -/
def TicTacToe.new : TicTacToe where
  board := fun _ => Cell.Empty
  current_player := Player.X
  game_over := false
  winner := none

/-- Embeds `check_winner`: the two loops over rows and columns and the two
diagonal checks, unrolled in source order; an early `return true` is a
disjunct. -/
def TicTacToe.check_winner (s : TicTacToe) (p : Player) : Bool :=
  decide (
    (s.board (0, 0) = Cell.Player p ∧ s.board (0, 1) = Cell.Player p ∧ s.board (0, 2) = Cell.Player p) ∨
    (s.board (1, 0) = Cell.Player p ∧ s.board (1, 1) = Cell.Player p ∧ s.board (1, 2) = Cell.Player p) ∨
    (s.board (2, 0) = Cell.Player p ∧ s.board (2, 1) = Cell.Player p ∧ s.board (2, 2) = Cell.Player p) ∨
    (s.board (0, 0) = Cell.Player p ∧ s.board (1, 0) = Cell.Player p ∧ s.board (2, 0) = Cell.Player p) ∨
    (s.board (0, 1) = Cell.Player p ∧ s.board (1, 1) = Cell.Player p ∧ s.board (2, 1) = Cell.Player p) ∨
    (s.board (0, 2) = Cell.Player p ∧ s.board (1, 2) = Cell.Player p ∧ s.board (2, 2) = Cell.Player p) ∨
    (s.board (0, 0) = Cell.Player p ∧ s.board (1, 1) = Cell.Player p ∧ s.board (2, 2) = Cell.Player p) ∨
    (s.board (0, 2) = Cell.Player p ∧ s.board (1, 1) = Cell.Player p ∧ s.board (2, 0) = Cell.Player p))

/-- Embeds `check_draw`: the nested loops return false at the first `Empty`
cell, true if none is found, i.e. true iff no cell is `Empty`. -/
def TicTacToe.check_draw (s : TicTacToe) : Bool :=
  decide (∀ rc : Fin 3 × Fin 3, s.board rc ≠ Cell.Empty)

/-- Embeds `make_move`.  The Rust guard
`if self.game_over || self.board[row][col] != Cell::Empty { return; }`
short-circuits: `game_over` is tested first, then the board is indexed
(panicking, i.e. `none`, when `row` or `col` is out of range), then the cell
is compared with `Empty`.  After placing the mark it checks the winner, then
the draw, else advances the player. -/
def TicTacToe.make_move (s : TicTacToe) (row col : Nat) : Option TicTacToe :=
  if s.game_over then some s
  else if h : row < 3 ∧ col < 3 then
    if s.board (⟨row, h.1⟩, ⟨col, h.2⟩) ≠ Cell.Empty then some s
    else
      let s1 : TicTacToe :=
        { s with board := Function.update s.board (⟨row, h.1⟩, ⟨col, h.2⟩) (Cell.Player s.current_player) }
      if s1.check_winner s.current_player then
        some { s1 with game_over := true, winner := some s.current_player }
      else if s1.check_draw then
        some { s1 with game_over := true }
      else
        some { s1 with current_player := s.current_player.other }
  else none

/-- Embeds `reset`: reassigns every field to its initial value. -/
def TicTacToe.reset (_s : TicTacToe) : TicTacToe where
  board := fun _ => Cell.Empty
  current_player := Player.X
  game_over := false
  winner := none

/-- Embeds `get_status_text` (the `format!` is string concatenation). -/
def TicTacToe.get_status_text (s : TicTacToe) : String :=
  if s.game_over then
    match s.winner with
    | some Player.X => "Player X Wins!"
    | some Player.O => "Player O Wins!"
    | none => "It\x27s a Draw!"
  else
    "Current Player: " ++
      (match s.current_player with
       | Player.X => "X"
       | Player.O => "O")

/-- A concrete board literal, row by row, for tests and witnesses. -/
def mkBoard (a00 a01 a02 a10 a11 a12 a20 a21 a22 : Cell) : Board :=
  fun rc =>
    match rc.1.val, rc.2.val with
    | 0, 0 => a00
    | 0, 1 => a01
    | 0, 2 => a02
    | 1, 0 => a10
    | 1, 1 => a11
    | 1, 2 => a12
    | 2, 0 => a20
    | 2, 1 => a21
    | 2, 2 => a22
    | _, _ => Cell.Empty

example : TicTacToe.new.check_draw = false := by decide
example : TicTacToe.new.check_winner Player.X = false := by decide
example : TicTacToe.new.make_move 3 0 = none := rfl
example : TicTacToe.new.get_status_text = "Current Player: X" := rfl
example :
    (mkBoard Cell.Empty (Cell.Player Player.X) Cell.Empty
      Cell.Empty Cell.Empty Cell.Empty
      Cell.Empty Cell.Empty (Cell.Player Player.O)) (0, 1) = Cell.Player Player.X := by decide

/-! ### Specification-side predicates

These follow the wording of the specification (the eight winning lines, a
fully occupied board, the mark counts); they are compared against the code
embeddings above. -/

/-- The eight winning lines of the spec: 3 rows, 3 columns, the main
diagonal (0,0)-(1,1)-(2,2) and the anti-diagonal (0,2)-(1,1)-(2,0). -/
def winLines : List (List (Fin 3 × Fin 3)) :=
  [[(0, 0), (0, 1), (0, 2)],
   [(1, 0), (1, 1), (1, 2)],
   [(2, 0), (2, 1), (2, 2)],
   [(0, 0), (1, 0), (2, 0)],
   [(0, 1), (1, 1), (2, 1)],
   [(0, 2), (1, 2), (2, 2)],
   [(0, 0), (1, 1), (2, 2)],
   [(0, 2), (1, 1), (2, 0)]]

/-- Spec wording: some winning line has all three of its cells equal to
`Occupied(p)`. -/
def wins (b : Board) (p : Player) : Prop :=
  ∃ l ∈ winLines, ∀ rc ∈ l, b rc = Cell.Player p

instance (b : Board) (p : Player) : Decidable (wins b p) := by
  unfold wins; infer_instance

/-- Spec wording: every one of the nine cells is `Occupied`. -/
def full (b : Board) : Prop :=
  ∀ rc : Fin 3 × Fin 3, ∃ p, b rc = Cell.Player p

instance (b : Board) : Decidable (full b) := by
  unfold full; infer_instance

/-- The number of cells of the board occupied by player `p`. -/
def count (b : Board) (p : Player) : Nat :=
  (Finset.univ.filter (fun rc : Fin 3 × Fin 3 => b rc = Cell.Player p)).card

/-- `check_winner` agrees with the eight-line spec predicate. -/
lemma check_winner_iff (s : TicTacToe) (p : Player) :
    s.check_winner p = true ↔ wins s.board p := by
  simp only [TicTacToe.check_winner, decide_eq_true_eq, wins, winLines]
  constructor
  · rintro (h | h | h | h | h | h | h | h)
    · exact ⟨[(0, 0), (0, 1), (0, 2)], by simp, by simpa using h⟩
    · exact ⟨[(1, 0), (1, 1), (1, 2)], by simp, by simpa using h⟩
    · exact ⟨[(2, 0), (2, 1), (2, 2)], by simp, by simpa using h⟩
    · exact ⟨[(0, 0), (1, 0), (2, 0)], by simp, by simpa using h⟩
    · exact ⟨[(0, 1), (1, 1), (2, 1)], by simp, by simpa using h⟩
    · exact ⟨[(0, 2), (1, 2), (2, 2)], by simp, by simpa using h⟩
    · exact ⟨[(0, 0), (1, 1), (2, 2)], by simp, by simpa using h⟩
    · exact ⟨[(0, 2), (1, 1), (2, 0)], by simp, by simpa using h⟩
  · rintro ⟨l, hl, h⟩
    simp only [List.mem_cons, List.not_mem_nil, or_false] at hl
    rcases hl with rfl | rfl | rfl | rfl | rfl | rfl | rfl | rfl
    · exact Or.inl (by simp_all)
    · exact Or.inr (Or.inl (by simp_all))
    · exact Or.inr (Or.inr (Or.inl (by simp_all)))
    · exact Or.inr (Or.inr (Or.inr (Or.inl (by simp_all))))
    · exact Or.inr (Or.inr (Or.inr (Or.inr (Or.inl (by simp_all)))))
    · exact Or.inr (Or.inr (Or.inr (Or.inr (Or.inr (Or.inl (by simp_all))))))
    · exact Or.inr (Or.inr (Or.inr (Or.inr (Or.inr (Or.inr (Or.inl (by simp_all)))))))
    · exact Or.inr (Or.inr (Or.inr (Or.inr (Or.inr (Or.inr (Or.inr (by simp_all)))))))

/-- A cell is not `Empty` exactly when some player occupies it. -/
lemma cell_ne_empty_iff (c : Cell) : c ≠ Cell.Empty ↔ ∃ p, c = Cell.Player p := by
  cases c <;> simp

/-- `check_draw` agrees with the full-board spec predicate. -/
lemma check_draw_iff (s : TicTacToe) :
    s.check_draw = true ↔ full s.board := by
  simp only [TicTacToe.check_draw, decide_eq_true_eq, full, cell_ne_empty_iff]

/-- `check_winner` reads only the board. -/
lemma check_winner_board (s t : TicTacToe) (p : Player) (h : s.board = t.board) :
    s.check_winner p = t.check_winner p := by
  simp only [TicTacToe.check_winner, h]

/-! ### Reachable states and the game invariant -/

/-- States reachable from `new` by any sequence of `make_move` and `reset`
calls.  A `make_move` step requires `some`: an out-of-range call returns
`none` (a panic aborting the program), so it produces no state. -/
inductive Reachable : TicTacToe → Prop where
  | init : Reachable TicTacToe.new
  | move (s s' : TicTacToe) (row col : Nat) :
      Reachable s → s.make_move row col = some s' → Reachable s'
  | reset (s : TicTacToe) : Reachable s → Reachable s.reset

/-- The invariant maintained by `new`, `make_move` and `reset`:
winner and game-over flags are coherent with the board, and the mark counts
track the player to move. -/
def GameInv (s : TicTacToe) : Prop :=
  (s.game_over = false → s.winner = none) ∧
  (∀ p, s.winner = some p → s.check_winner p = true) ∧
  (s.game_over = true → (∃ p, s.winner = some p) ∨ full s.board) ∧
  count s.board Player.O ≤ count s.board Player.X ∧
  count s.board Player.X ≤ count s.board Player.O + 1 ∧
  (s.game_over = false →
    (s.current_player = Player.X → count s.board Player.X = count s.board Player.O) ∧
    (s.current_player = Player.O → count s.board Player.X = count s.board Player.O + 1))

lemma inv_new : GameInv TicTacToe.new := by
  refine ⟨fun _ => rfl, ?_, ?_, ?_, ?_, ?_⟩ <;> decide

/-- Placing a mark on an empty cell raises the count of the mover by one and
leaves the count of the other player unchanged. -/
lemma count_update (b : Board) (a : Fin 3 × Fin 3) (q p : Player)
    (hb : b a = Cell.Empty) :
    count (Function.update b a (Cell.Player q)) p =
      count b p + if p = q then 1 else 0 := by
  by_cases hpq : p = q
  · subst hpq
    rw [if_pos rfl]
    unfold count
    have h1 : Finset.univ.filter
          (fun rc : Fin 3 × Fin 3 => Function.update b a (Cell.Player p) rc = Cell.Player p)
        = insert a (Finset.univ.filter (fun rc : Fin 3 × Fin 3 => b rc = Cell.Player p)) := by
      ext x
      by_cases hx : x = a
      · subst hx
        simp [Function.update_same]
      · simp [Function.update_noteq hx, hx]
    rw [h1, Finset.card_insert_of_not_mem]
    simp [hb]
  · rw [if_neg hpq]
    unfold count
    have h1 : Finset.univ.filter
          (fun rc : Fin 3 × Fin 3 => Function.update b a (Cell.Player q) rc = Cell.Player p)
        = Finset.univ.filter (fun rc : Fin 3 × Fin 3 => b rc = Cell.Player p) := by
      ext x
      by_cases hx : x = a
      · subst hx
        have hqp : q ≠ p := fun h => hpq h.symm
        simp [Function.update_same, hb, hqp]
      · simp [Function.update_noteq hx]
    rw [h1, Nat.add_zero]

/-- `make_move` preserves the game invariant. -/
lemma inv_move (s s' : TicTacToe) (row col : Nat)
    (hinv : GameInv s) (h : s.make_move row col = some s') : GameInv s' := by
  obtain ⟨hA, hB, hC, hD, hE, hF⟩ := hinv
  simp only [TicTacToe.make_move] at h
  split at h
  · obtain rfl := Option.some.inj h
    exact ⟨hA, hB, hC, hD, hE, hF⟩
  · rename_i hgo
    rw [Bool.not_eq_true] at hgo
    split at h
    · rename_i hrc
      split at h
      · obtain rfl := Option.some.inj h
        exact ⟨hA, hB, hC, hD, hE, hF⟩
      · rename_i hcell
        rw [not_not] at hcell
        have cX := count_update s.board (⟨row, hrc.1⟩, ⟨col, hrc.2⟩) s.current_player Player.X hcell
        have cO := count_update s.board (⟨row, hrc.1⟩, ⟨col, hrc.2⟩) s.current_player Player.O hcell
        have hw0 : s.winner = none := hA hgo
        split at h
        · rename_i hwin
          obtain rfl := Option.some.inj h
          refine ⟨by simp, ?_, ?_, ?_, ?_, by simp⟩
          · intro p hp
            obtain rfl := Option.some.inj hp
            exact hwin
          · exact fun _ => Or.inl ⟨s.current_player, rfl⟩
          · rcases hq : s.current_player with _ | _ <;>
              rw [hq] at cX cO <;> simp at cX cO <;>
              have := hF hgo <;> rw [hq] at this <;> simp at this <;>
              simp only [TicTacToe.board] <;> omega
          · rcases hq : s.current_player with _ | _ <;>
              rw [hq] at cX cO <;> simp at cX cO <;>
              have := hF hgo <;> rw [hq] at this <;> simp at this <;>
              simp only [TicTacToe.board] <;> omega
        · rename_i hwin
          split at h
          · rename_i hdraw
            obtain rfl := Option.some.inj h
            refine ⟨by simp, ?_, ?_, ?_, ?_, by simp⟩
            · intro p hp
              rw [hw0] at hp
              cases hp
            · intro _
              right
              exact (check_draw_iff _).mp hdraw
            · rcases hq : s.current_player with _ | _ <;>
                rw [hq] at cX cO <;> simp at cX cO <;>
                have := hF hgo <;> rw [hq] at this <;> simp at this <;>
                simp only [TicTacToe.board] <;> omega
            · rcases hq : s.current_player with _ | _ <;>
                rw [hq] at cX cO <;> simp at cX cO <;>
                have := hF hgo <;> rw [hq] at this <;> simp at this <;>
                simp only [TicTacToe.board] <;> omega
          · obtain rfl := Option.some.inj h
            refine ⟨fun _ => hw0, ?_, ?_, ?_, ?_, ?_⟩
            · intro p hp
              rw [hw0] at hp
              cases hp
            · intro hcon
              rw [hgo] at hcon
              cases hcon
            · rcases hq : s.current_player with _ | _ <;>
                rw [hq] at cX cO <;> simp at cX cO <;>
                have := hF hgo <;> rw [hq] at this <;> simp at this <;>
                simp only [TicTacToe.board] <;> omega
            · rcases hq : s.current_player with _ | _ <;>
                rw [hq] at cX cO <;> simp at cX cO <;>
                have := hF hgo <;> rw [hq] at this <;> simp at this <;>
                simp only [TicTacToe.board] <;> omega
            · intro _
              constructor
              · intro hcur
                rcases hq : s.current_player with _ | _
                · rw [hq] at hcur
                  simp [Player.other] at hcur
                · rw [hq] at cX cO
                  simp at cX cO
                  have := (hF hgo).2 hq
                  simp only [TicTacToe.board]
                  omega
              · intro hcur
                rcases hq : s.current_player with _ | _
                · rw [hq] at cX cO
                  simp at cX cO
                  have := (hF hgo).1 hq
                  simp only [TicTacToe.board]
                  omega
                · rw [hq] at hcur
                  simp [Player.other] at hcur
    · simp at h

/-- `reset` always produces the initial state. -/
lemma reset_eq_new (s : TicTacToe) : s.reset = TicTacToe.new := rfl

/-- Every reachable state satisfies the game invariant. -/
lemma reachable_inv (s : TicTacToe) (hs : Reachable s) : GameInv s := by
  induction hs with
  | init => exact inv_new
  | move t t' row col _ hstep ih => exact inv_move t t' row col ih hstep
  | reset t _ _ => rw [reset_eq_new]; exact inv_new

/-! ### Claim theorems -/

/-- C2: for every board state and player `p`, `check_winner p` returns true
iff at least one of the eight lines (3 rows, 3 columns, main diagonal,
anti-diagonal) has all three cells equal to `Occupied(p)`.  (`check_winner`
is a pure function of the state in this embedding, so it mutates nothing.) -/
theorem C2_check_winner_eight_lines (s : TicTacToe) (p : Player) :
    s.check_winner p = true ↔ wins s.board p :=
  check_winner_iff s p

/-- C3 counterexample: on the initial state (game not over), `make_move 3 0`
with the out-of-range row 3 is not a silent no-op: the board indexing
panics, modelled by `none`. -/
theorem C3_counterexample : TicTacToe.new.make_move 3 0 = none := rfl

/-- C3 amended: for out-of-range indices (row > 2 or col > 2), `make_move`
is a silent no-op only when the game is already over (the `game_over` test
short-circuits before indexing); when the game is not over it fails with an
index-out-of-bounds panic (`none`) instead of returning unchanged. -/
theorem C3_out_of_range (s : TicTacToe) (row col : Nat) (h : 2 < row ∨ 2 < col) :
    s.make_move row col = if s.game_over then some s else none := by
  unfold TicTacToe.make_move
  by_cases hgo : s.game_over = true
  · rw [if_pos hgo, if_pos hgo]
  · rw [if_neg hgo, if_neg hgo, dif_neg (by omega)]

/-- C3 witness: the amended claim at the concrete input (row 3, col 0). -/
theorem C3_out_of_range_witness :
    (2 < 3 ∨ 2 < 0) ∧
      TicTacToe.new.make_move 3 0 =
        (if TicTacToe.new.game_over then some TicTacToe.new else none) :=
  ⟨Or.inl (by decide), C3_out_of_range TicTacToe.new 3 0 (Or.inl (by decide))⟩

/-- C4: for in-range indices, if the game is over or the target cell is not
empty, `make_move` returns the state exactly unchanged (board,
current player, game-over flag and winner included). -/
theorem C4_noop_frame (s : TicTacToe) (row col : Nat) (hr : row < 3) (hc : col < 3)
    (h : s.game_over = true ∨ s.board (⟨row, hr⟩, ⟨col, hc⟩) ≠ Cell.Empty) :
    s.make_move row col = some s := by
  unfold TicTacToe.make_move
  by_cases hgo : s.game_over = true
  · rw [if_pos hgo]
  · have hcell : s.board (⟨row, hr⟩, ⟨col, hc⟩) ≠ Cell.Empty := by
      rcases h with h | h
      · exact absurd h hgo
      · exact h
    rw [if_neg hgo, dif_pos ⟨hr, hc⟩, if_pos hcell]

/-- C4 witness: a move into cell (0,0) of a game already over changes
nothing. -/
theorem C4_noop_frame_witness :
    (TicTacToe.mk (fun _ => Cell.Empty) Player.X true none).make_move 0 0 =
      some (TicTacToe.mk (fun _ => Cell.Empty) Player.X true none) :=
  C4_noop_frame (TicTacToe.mk (fun _ => Cell.Empty) Player.X true none) 0 0
    (by decide) (by decide) (Or.inl rfl)

/-- C5: from every reachable state, `reset` yields exactly the state
produced by `new`: all cells empty, X to move, not over, no winner. -/
theorem C5_reset_restores_initial (s : TicTacToe) (_hs : Reachable s) :
    s.reset = TicTacToe.new :=
  reset_eq_new s

/-- C5 witness: the claim applied at the (reachable) initial state. -/
theorem C5_reset_restores_initial_witness :
    TicTacToe.new.reset = TicTacToe.new :=
  C5_reset_restores_initial TicTacToe.new Reachable.init

/-- C7: in every reachable state, a set winner implies the game is over;
a state that is not over never carries a winner. -/
theorem C7_winner_implies_over (s : TicTacToe) (hs : Reachable s) :
    (s.winner ≠ none → s.game_over = true) ∧
    (∀ p, ¬(s.game_over = false ∧ s.winner = some p)) := by
  obtain ⟨hA, _, _, _, _, _⟩ := reachable_inv s hs
  constructor
  · intro hw
    by_contra hgo
    rw [Bool.not_eq_true] at hgo
    exact hw (hA hgo)
  · rintro p ⟨hgo, hw⟩
    rw [hA hgo] at hw
    cases hw

/-- C7 witness: the claim applied at the (reachable) initial state. -/
theorem C7_winner_implies_over_witness :
    (TicTacToe.new.winner ≠ none → TicTacToe.new.game_over = true) ∧
    (∀ p, ¬(TicTacToe.new.game_over = false ∧ TicTacToe.new.winner = some p)) :=
  C7_winner_implies_over TicTacToe.new Reachable.init

/-- C8: in every reachable state, a recorded winner `p` satisfies
`check_winner p` on the current board, and a finished game is either won or
has a fully occupied board. -/
theorem C8_over_coherent (s : TicTacToe) (hs : Reachable s) :
    (∀ p, s.winner = some p → s.check_winner p = true) ∧
    (s.game_over = true → (∃ p, s.winner = some p) ∨ full s.board) := by
  obtain ⟨_, hB, hC, _, _, _⟩ := reachable_inv s hs
  exact ⟨hB, hC⟩

/-- C8 witness: the claim applied at the (reachable) initial state. -/
theorem C8_over_coherent_witness :
    (∀ p, TicTacToe.new.winner = some p → TicTacToe.new.check_winner p = true) ∧
    (TicTacToe.new.game_over = true →
      (∃ p, TicTacToe.new.winner = some p) ∨ full TicTacToe.new.board) :=
  C8_over_coherent TicTacToe.new Reachable.init

/-- C9: the status text is determined by (game_over, winner,
current_player): "Current Player: X"/"Current Player: O" while the game is
in progress, and "Player X Wins!"/"Player O Wins!"/the draw message once it
is over. -/
theorem C9_status_text (s : TicTacToe) :
    (s.game_over = false → s.current_player = Player.X →
      s.get_status_text = "Current Player: X") ∧
    (s.game_over = false → s.current_player = Player.O →
      s.get_status_text = "Current Player: O") ∧
    (s.game_over = true → s.winner = some Player.X →
      s.get_status_text = "Player X Wins!") ∧
    (s.game_over = true → s.winner = some Player.O →
      s.get_status_text = "Player O Wins!") ∧
    (s.game_over = true → s.winner = none →
      s.get_status_text = "It\x27s a Draw!") := by
  unfold TicTacToe.get_status_text
  refine ⟨?_, ?_, ?_, ?_, ?_⟩ <;> intro h1 h2 <;> rw [h1] <;> simp [h2]

/-- C9 witness: the in-progress case at the initial state. -/
theorem C9_status_text_witness :
    TicTacToe.new.get_status_text = "Current Player: X" :=
  (C9_status_text TicTacToe.new).1 rfl rfl

/-- C10: in every reachable state the number of X cells equals the number
of O cells or exceeds it by exactly one, and while the game is in progress
the difference is 0 exactly when X is to move and 1 exactly when O is. -/
theorem C10_mark_counts (s : TicTacToe) (hs : Reachable s) :
    (count s.board Player.X = count s.board Player.O ∨
      count s.board Player.X = count s.board Player.O + 1) ∧
    (s.game_over = false →
      ((count s.board Player.X = count s.board Player.O ↔
          s.current_player = Player.X) ∧
       (count s.board Player.X = count s.board Player.O + 1 ↔
          s.current_player = Player.O))) := by
  obtain ⟨_, _, _, hD, hE, hF⟩ := reachable_inv s hs
  constructor
  · omega
  · intro hgo
    constructor
    · constructor
      · intro hcnt
        rcases hq : s.current_player with _ | _
        · rfl
        · have := (hF hgo).2 hq
          omega
      · exact (hF hgo).1
    · constructor
      · intro hcnt
        rcases hq : s.current_player with _ | _
        · have := (hF hgo).1 hq
          omega
        · rfl
      · exact (hF hgo).2

/-- C10 witness: the claim applied at the (reachable) initial state. -/
theorem C10_mark_counts_witness :
    (count TicTacToe.new.board Player.X = count TicTacToe.new.board Player.O ∨
      count TicTacToe.new.board Player.X = count TicTacToe.new.board Player.O + 1) ∧
    (TicTacToe.new.game_over = false →
      ((count TicTacToe.new.board Player.X = count TicTacToe.new.board Player.O ↔
          TicTacToe.new.current_player = Player.X) ∧
       (count TicTacToe.new.board Player.X = count TicTacToe.new.board Player.O + 1 ↔
          TicTacToe.new.current_player = Player.O))) :=
  C10_mark_counts TicTacToe.new Reachable.init

/-- C6: `check_draw` returns true iff all nine cells are occupied,
regardless of winner status (and it is a pure query in this embedding);
moreover the winner check in `make_move` takes precedence: a move that
both completes a line for the mover and fills the board ends with
`winner = some player`, a win, not a draw. -/
theorem C6_check_draw_and_precedence :
    (∀ s : TicTacToe, s.check_draw = true ↔ full s.board) ∧
    (∀ (s : TicTacToe) (row col : Nat) (hr : row < 3) (hc : col < 3),
      s.game_over = false →
      s.board (⟨row, hr⟩, ⟨col, hc⟩) = Cell.Empty →
      wins (Function.update s.board (⟨row, hr⟩, ⟨col, hc⟩)
        (Cell.Player s.current_player)) s.current_player →
      full (Function.update s.board (⟨row, hr⟩, ⟨col, hc⟩)
        (Cell.Player s.current_player)) →
      ∃ s', s.make_move row col = some s' ∧ s'.game_over = true ∧
        s'.winner = some s.current_player) := by
  constructor
  · exact check_draw_iff
  · intro s row col hr hc hgo hcell hwin hfull
    have hW : TicTacToe.check_winner
        { s with board := (Function.update s.board (⟨row, hr⟩, ⟨col, hc⟩)
            (Cell.Player s.current_player)) } s.current_player = true :=
      (check_winner_iff _ _).mpr hwin
    refine ⟨{ s with
        board := (Function.update s.board (⟨row, hr⟩, ⟨col, hc⟩)
          (Cell.Player s.current_player)),
        game_over := true,
        winner := some s.current_player }, ?_, rfl, rfl⟩
    simp only [TicTacToe.make_move]
    rw [if_neg (by rw [hgo]; simp), dif_pos ⟨hr, hc⟩,
      if_neg (not_not_intro hcell), if_pos hW]

/-- C6 witness: on the board `X X _ / O O X / X O O` with X to move,
the move (0,2) fills the board and completes the top row: the result is a
win for X, not a draw. -/
theorem C6_check_draw_and_precedence_witness :
    ∃ s', (TicTacToe.mk
        (mkBoard (Cell.Player Player.X) (Cell.Player Player.X) Cell.Empty
          (Cell.Player Player.O) (Cell.Player Player.O) (Cell.Player Player.X)
          (Cell.Player Player.X) (Cell.Player Player.O) (Cell.Player Player.O))
        Player.X false none).make_move 0 2 = some s' ∧
      s'.game_over = true ∧ s'.winner = some Player.X :=
  C6_check_draw_and_precedence.2
    (TicTacToe.mk
      (mkBoard (Cell.Player Player.X) (Cell.Player Player.X) Cell.Empty
        (Cell.Player Player.O) (Cell.Player Player.O) (Cell.Player Player.X)
        (Cell.Player Player.X) (Cell.Player Player.O) (Cell.Player Player.O))
      Player.X false none)
    0 2 (by decide) (by decide) rfl (by decide) (by decide) (by decide)

/-- C1: a move into an empty in-range cell of a reachable, unfinished game
places the mark of the current player; if the placed board has a winning
line for the mover the game ends won by the mover with the turn not
advanced; otherwise if the placed board is full the game ends with no
winner and the turn not advanced; otherwise the turn passes to the other
player and the game-over flag and winner are unchanged. -/
theorem C1_make_move_valid (s : TicTacToe) (row col : Nat) (hr : row < 3) (hc : col < 3)
    (hs : Reachable s) (hgo : s.game_over = false)
    (hcell : s.board (⟨row, hr⟩, ⟨col, hc⟩) = Cell.Empty) :
    ∃ s', s.make_move row col = some s' ∧
      s'.board = Function.update s.board (⟨row, hr⟩, ⟨col, hc⟩) (Cell.Player s.current_player) ∧
      (wins s'.board s.current_player →
        s'.game_over = true ∧ s'.winner = some s.current_player ∧
        s'.current_player = s.current_player) ∧
      (¬ wins s'.board s.current_player → full s'.board →
        s'.game_over = true ∧ s'.winner = none ∧
        s'.current_player = s.current_player) ∧
      (¬ wins s'.board s.current_player → ¬ full s'.board →
        s'.current_player = s.current_player.other ∧ s'.game_over = s.game_over ∧
        s'.winner = s.winner) := by
  have hw0 : s.winner = none := (reachable_inv s hs).1 hgo
  by_cases hwin : wins (Function.update s.board (⟨row, hr⟩, ⟨col, hc⟩)
      (Cell.Player s.current_player)) s.current_player
  · refine ⟨{ s with
        board := (Function.update s.board (⟨row, hr⟩, ⟨col, hc⟩)
          (Cell.Player s.current_player)),
        game_over := true,
        winner := some s.current_player }, ?_, rfl, ?_, ?_, ?_⟩
    · simp only [TicTacToe.make_move]
      rw [if_neg (by rw [hgo]; simp), dif_pos ⟨hr, hc⟩,
        if_neg (not_not_intro hcell), if_pos ((check_winner_iff _ _).mpr hwin)]
    · exact fun _ => ⟨rfl, rfl, rfl⟩
    · exact fun hnw _ => absurd hwin hnw
    · exact fun hnw _ => absurd hwin hnw
  · have hWf : TicTacToe.check_winner
        { s with board := (Function.update s.board (⟨row, hr⟩, ⟨col, hc⟩)
            (Cell.Player s.current_player)) } s.current_player = false := by
      rw [← Bool.not_eq_true, check_winner_iff]
      exact hwin
    by_cases hfull : full (Function.update s.board (⟨row, hr⟩, ⟨col, hc⟩)
        (Cell.Player s.current_player))
    · refine ⟨{ s with
          board := (Function.update s.board (⟨row, hr⟩, ⟨col, hc⟩)
            (Cell.Player s.current_player)),
          game_over := true }, ?_, rfl, ?_, ?_, ?_⟩
      · simp only [TicTacToe.make_move]
        rw [if_neg (by rw [hgo]; simp), dif_pos ⟨hr, hc⟩,
          if_neg (not_not_intro hcell), if_neg (by rw [hWf]; simp),
          if_pos ((check_draw_iff _).mpr hfull)]
      · exact fun hw => absurd hw hwin
      · exact fun _ _ => ⟨rfl, hw0, rfl⟩
      · exact fun _ hnf => absurd hfull hnf
    · have hDf : TicTacToe.check_draw
          { s with board := (Function.update s.board (⟨row, hr⟩, ⟨col, hc⟩)
              (Cell.Player s.current_player)) } = false := by
        rw [← Bool.not_eq_true, check_draw_iff]
        exact hfull
      refine ⟨{ s with
          board := (Function.update s.board (⟨row, hr⟩, ⟨col, hc⟩)
            (Cell.Player s.current_player)),
          current_player := s.current_player.other }, ?_, rfl, ?_, ?_, ?_⟩
      · simp only [TicTacToe.make_move]
        rw [if_neg (by rw [hgo]; simp), dif_pos ⟨hr, hc⟩,
          if_neg (not_not_intro hcell), if_neg (by rw [hWf]; simp),
          if_neg (by rw [hDf]; simp)]
      · exact fun hw => absurd hw hwin
      · exact fun _ hf => absurd hf hfull
      · exact fun _ _ => ⟨rfl, rfl, rfl⟩

/-- C1 witness: the first move of the game, X into (0,0); the placed board
neither wins nor is full, so the turn passes to O. -/
theorem C1_make_move_valid_witness :
    ∃ s', TicTacToe.new.make_move 0 0 = some s' ∧
      s'.board = Function.update TicTacToe.new.board (⟨0, by decide⟩, ⟨0, by decide⟩)
        (Cell.Player TicTacToe.new.current_player) ∧
      (wins s'.board TicTacToe.new.current_player →
        s'.game_over = true ∧ s'.winner = some TicTacToe.new.current_player ∧
        s'.current_player = TicTacToe.new.current_player) ∧
      (¬ wins s'.board TicTacToe.new.current_player → full s'.board →
        s'.game_over = true ∧ s'.winner = none ∧
        s'.current_player = TicTacToe.new.current_player) ∧
      (¬ wins s'.board TicTacToe.new.current_player → ¬ full s'.board →
        s'.current_player = TicTacToe.new.current_player.other ∧
        s'.game_over = TicTacToe.new.game_over ∧
        s'.winner = TicTacToe.new.winner) :=
  C1_make_move_valid TicTacToe.new 0 0 (by decide) (by decide) Reachable.init rfl rfl
